import Mathlib

/-!
Shallow embedding of `dsb3/pipeline.py` (run/step artifact versioning and
resolution engine) and proofs of the specification's claims about it.

The embedding models:
  * the module-level mutable globals as an explicit `PipelineState`,
  * the file system as an explicit `FS` value (directories created so far and
    a map from file path to typed contents),
  * wall-clock time as an explicit `now` argument,
  * Python exceptions as an `Except PyExn` result,
  * Python (ordered) dicts as association lists with the `odSet`/`odUpdate`
    in-place-or-append semantics of `d[k] = v` / `d.update(...)`.

Log file *contents* are not modelled (no claim depends on them); the log
files themselves are created where the source creates them.
-/

-- ------------------------------------------------------------------
-- Python modelling helpers
-- ------------------------------------------------------------------

/-- Decimal digit character, as used by CPython's integer formatting. -/
def digitChar : Nat → Char
  | 0 => '0' | 1 => '1' | 2 => '2' | 3 => '3' | 4 => '4'
  | 5 => '5' | 6 => '6' | 7 => '7' | 8 => '8' | 9 => '9'
  | _ => '*'

/-- Reversed decimal digit list of `n`; the first argument is structural fuel
(any fuel greater than `n` gives the digits, see `natDigitsRev_fuel`). -/
def natDigitsRev : Nat → Nat → List Char
  | 0, _ => []
  | fuel+1, n => if n < 10 then [digitChar n] else digitChar (n % 10) :: natDigitsRev fuel (n / 10)

/-- The decimal digits of `n`, most significant first. -/
def natChars (n : Nat) : List Char := (natDigitsRev (n + 1) n).reverse

/-- Models Python's `str` on a non-negative integer: its decimal numeral. -/
def natToStr (n : Nat) : String := String.mk (natChars n)

/-- Models Python's `str` on a list of non-negative integers, e.g. `[3, 1, 0]`. -/
def pyListStr (l : List Nat) : String :=
  "[" ++ String.intercalate ", " (l.map natToStr) ++ "]"

/-- Models Python's `in` operator on strings (substring test). -/
def strContains (s sub : String) : Bool := decide (sub.data <:+: s.data)

/-- Prefix test on strings, stated on the underlying character lists. -/
def strIsPrefixOf (p s : String) : Bool := decide (p.data <+: s.data)

/-- Models `d[k] = v` on a Python (insertion-ordered) dict: replace the value
of an existing key in place, else append the binding at the end. -/
def odSet {α β : Type} [DecidableEq α] : List (α × β) → α → β → List (α × β)
  | [], k, v => [(k, v)]
  | (k', v') :: rest, k, v =>
    if k' = k then (k, v) :: rest else (k', v') :: odSet rest k v

/-- Models `d[k]` lookup on a Python dict. -/
def odLookup {α β : Type} [DecidableEq α] (k : α) : List (α × β) → Option β
  | [] => none
  | (k', v) :: rest => if k' = k then some v else odLookup k rest

/-- The keys of a Python dict, in insertion order. -/
def odKeys {α β : Type} (d : List (α × β)) : List α := d.map Prod.fst

/-- Models `old.update(entries)` on Python dicts (shallow key-union update,
later values winning on key collision). -/
def odUpdate {α β : Type} [DecidableEq α] (old entries : List (α × β)) : List (α × β) :=
  entries.foldl (fun acc kv => odSet acc kv.1 kv.2) old

/-- Models the Python slice `l[a:b]` for non-negative bounds. -/
def pySlice {α : Type} (l : List α) (a b : Nat) : List α := (l.drop a).take (b - a)

-- ------------------------------------------------------------------
-- Data model: artifacts, registry, file system, exceptions
-- ------------------------------------------------------------------

/-- JSON-like scalar values, as needed by the modelled structured records. -/
inductive JVal
  | s (v : String)
  | n (v : Nat)
  | i (v : Int)
  | b (v : Bool)
  | null
deriving DecidableEq

/-- An ordered JSON record (Python dict preserving insertion order). -/
abbrev Rec := List (String × JVal)

/-- A run-registry entry: the `[timestamp, description]` pair. -/
abbrev RunEntry := String × String

/-- The persisted run registry: ordered mapping from run identifier to entry.
Keys are modelled as `Nat`; the source stores them as their canonical decimal
strings, converting with `str(run)` and `int(key)`, which are mutually
inverse on canonical numerals. -/
abbrev Registry := List (Nat × RunEntry)

/-- Contents of files, by the kind of data the pipeline writes. -/
inductive FileData
  | json (r : Rec)
  | registry (r : Registry)
  | strMap (m : List (String × String))
  | text (s : String)
  | html
deriving DecidableEq

/-- The Python exceptions raised by the modelled code paths. -/
inductive PyExn
  | fileNotFound (msg : String)
  | typeError (msg : String)
  | keyError (msg : String)
  | indexError (msg : String)
  | stopIteration
  | jsonDecodeError (msg : String)
deriving DecidableEq

deriving instance DecidableEq for Except

/-- The file system under the base directory: the directories created so far
and a map from file path to contents. -/
structure FS where
  dirs : List String
  files : List (String × FileData)
deriving DecidableEq

def FS.getFile (fs : FS) (p : String) : Option FileData := odLookup p fs.files

def FS.setFile (fs : FS) (p : String) (d : FileData) : FS :=
  { fs with files := odSet fs.files p d }

/-- Models `utils.ensure_dir` / `os.makedirs`: record the directory; the
prefix test in `fsDirExists` makes all its ancestors exist as well. -/
def ensure_dir (fs : FS) (d : String) : FS := { fs with dirs := d :: fs.dirs }

/-- Models `os.path.exists` on a directory path. The pipeline's directory
paths all end in `/`, so on POSIX they can only name directories; a
directory exists as soon as some created directory extends it. -/
def fsDirExists (fs : FS) (p : String) : Bool := fs.dirs.any (fun d => strIsPrefixOf p d)

def fsFileExists (fs : FS) (p : String) : Bool := (fs.getFile p).isSome

/-- Models `os.path.exists` on an arbitrary path. -/
def fsPathExists (fs : FS) (p : String) : Bool := fsFileExists fs p || fsDirExists fs p

/-- Models `open(dir + base, 'w')` followed by a dump: fails like Python when
the containing directory does not exist, else (over)writes the file. -/
def open_write (fs : FS) (dir base : String) (d : FileData) : Except PyExn FS :=
  if fsDirExists fs dir then .ok (fs.setFile (dir ++ base) d)
  else .error (.fileNotFound (dir ++ base))

/-- Modelled from the spec: `utils.dir_is_empty` is not part of the given
sources; per the spec the visualization aggregator runs only when the figures
directory is non-empty, so emptiness is "no file stored under the directory". -/
def dir_is_empty (fs : FS) (d : String) : Bool := fs.files.all (fun p => !(strIsPrefixOf d p.1))

-- ------------------------------------------------------------------
-- Pipeline state and user functions
-- ------------------------------------------------------------------

/-- The module-level mutable state of `dsb3/pipeline.py` that the claims
depend on; fields keep the source's names (the name-mangled globals `__run`,
`__init_run`, `__step`, `__step_name`, `__step_dir_suffix` lose the
underscores). -/
structure PipelineState where
  write_basedir : String
  dataset_name : String
  avail_runs : Registry
  run : Nat
  init_run : Int
  step : String
  step_name : String
  step_dir_suffix : String
  patients : List String
  n_patients : Nat
  patients_raw_data_paths : List (String × String)
deriving DecidableEq

/-- The static step catalog `avail_steps`. -/
def avail_steps : List (String × String) :=
  [("0", "resample_lungs"),
   ("1", "gen_prob_maps"),
   ("2", "gen_nodule_masks"),
   ("3", "gen_candidates"),
   ("3eval", "gen_candidates_eval"),
   ("3vis", "gen_candidates_vis"),
   ("4", "interpolate_candidates"),
   ("5", "filter_candidates"),
   ("6", "gen_nodule_seg_data"),
   ("7", "gen_submission"),
   ("8", "include_nodule_distr"),
   ("9", "pred_cancer_per_candidate")]

/-- `get_write_dir(run=None)`: `write_basedir + dataset_name + '_' + str(run) + '/'`,
with `run` defaulting to the current run. -/
def get_write_dir (st : PipelineState) (run : Option Nat) : String :=
  st.write_basedir ++ st.dataset_name ++ "_" ++ natToStr (run.getD st.run) ++ "/"

/-- `get_step_dir(step_name=None, run=None)`: the write dir followed by
`step_name + __step_dir_suffix + '/'`. -/
def get_step_dir (st : PipelineState) (step_name : Option String) (run : Option Nat) : String :=
  get_write_dir st run ++ step_name.getD st.step_name ++ st.step_dir_suffix ++ "/"

/-- The step-directory path as a function of the full triple
(run identifier, step name, suffix) for a fixed base directory and dataset:
the form in which the spec states `stepDir(run, step, suffix)`. -/
def step_dir_of (base ds : String) (run : Nat) (sn sfx : String) : String :=
  base ++ ds ++ "_" ++ natToStr run ++ "/" ++ sn ++ sfx ++ "/"

/-- `[i, i-1, ..., 0]`: the value of Python's `range(i, -1, -1)` for `i ≥ 0`. -/
def countdown : Nat → List Nat
  | 0 => [0]
  | i+1 => (i+1) :: countdown i

/-- `trial_runs = [__run] + list(range(__init_run, -1, -1))`; the range is
empty when `__init_run` is negative. -/
def trial_runs (st : PipelineState) : List Nat :=
  st.run :: (match st.init_run with
    | Int.ofNat i => countdown i
    | Int.negSucc _ => [])

/-- The `for run in trial_runs` loop body of `_get_step_dir_for_load`,
carrying the most recently computed `step_dir` for the error message. -/
def loadLoop (st : PipelineState) (fs : FS) (sn : Option String) :
    List Nat → String → Except PyExn String
  | [], last_dir =>
    .error (.fileNotFound
      ("Did not find " ++ last_dir ++ " in runs " ++ pyListStr (trial_runs st) ++ "."))
  | r :: rest, _ =>
    if fsDirExists fs (get_step_dir st sn (some r)) then .ok (get_step_dir st sn (some r))
    else loadLoop st fs sn rest (get_step_dir st sn (some r))

/-- `_get_step_dir_for_load(step_name=None)`: go backwards in run history to
find the first run whose step directory exists. -/
def _get_step_dir_for_load (st : PipelineState) (fs : FS) (step_name : Option String) :
    Except PyExn String :=
  loadLoop st fs step_name (trial_runs st) ""

/-- The message of the `FileNotFoundError` raised on lineage exhaustion: the
last tried directory and the full chain of attempted runs. -/
def lineage_err_msg (st : PipelineState) (sn : Option String) : String :=
  "Did not find " ++
    (((trial_runs st).map (fun r => get_step_dir st sn (some r))).getLast?.getD "") ++
    " in runs " ++ pyListStr (trial_runs st) ++ "."

/-- `load_json(basename, step_name)`: resolve the owning step directory
through the lineage, then deserialize. -/
def load_json (st : PipelineState) (fs : FS) (basename : String) (step_name : Option String) :
    Except PyExn Rec :=
  match _get_step_dir_for_load st fs step_name with
  | .error e => .error e
  | .ok step_dir =>
    match fs.getFile (step_dir ++ basename) with
    | some (.json r) => .ok r
    | some _ => .error (.jsonDecodeError (step_dir ++ basename))
    | none => .error (.fileNotFound (step_dir ++ basename))

/-- `save_json(basename, dictionary, step_name, mode)`: in mode `'a'`, if the
file already exists at the direct (current-run) path, read it back and merge
via `old_d.update(dictionary)` before writing; otherwise write directly. -/
def save_json (st : PipelineState) (fs : FS) (basename : String) (dictionary : Rec)
    (step_name : Option String) (mode : String) : Except PyExn FS :=
  let dir := get_step_dir st step_name none
  if mode == "a" && fsPathExists fs (dir ++ basename) then
    match load_json st fs basename step_name with
    | .error e => .error e
    | .ok old_d => open_write fs dir basename (.json (odUpdate old_d dictionary))
  else
    open_write fs dir basename (.json dictionary)

-- ------------------------------------------------------------------
-- Run registry: _init_run
-- ------------------------------------------------------------------

/-- The path of the persisted run registry, `write_basedir + dataset_name + '_runs.json'`. -/
def runs_filename (st : PipelineState) : String :=
  st.write_basedir ++ st.dataset_name ++ "_runs.json"

/-- Lines 197-200 of `_init_run`: the new value of the global `__init_run`,
the pinned value when one was passed and `run - 1` otherwise. -/
def default_init_run (init_run : Option Nat) (run : Nat) : Int :=
  match init_run with
  | some i => Int.ofNat i
  | none => (run : Int) - 1

/-- Lines 190-202 of `_init_run`, shared by all of its branches: default the
description from the registry's entry when empty (a `KeyError` when the run
has none), stamp the active run's entry with the current time, persist the
registry, update the globals and ensure the write directory exists. -/
def _init_run_finish (st : PipelineState) (fs : FS) (avail : Registry) (run1 : Nat)
    (run_descr : String) (init_run : Option Nat) (now : String) :
    Except PyExn (PipelineState × FS) :=
  let descr_res : Except PyExn String :=
    if avail ≠ [] ∧ run_descr = "" then
      match odLookup run1 avail with
      | some ent => .ok ent.2
      | none => .error (.keyError (natToStr run1))
    else .ok run_descr
  match descr_res with
  | .error e => .error e
  | .ok descr =>
    let avail2 := odSet avail run1 (now, descr)
    match open_write fs st.write_basedir (st.dataset_name ++ "_runs.json") (.registry avail2) with
    | .error e => .error e
    | .ok fs1 =>
      let st1 := { st with
        avail_runs := avail2
        run := run1
        init_run := default_init_run init_run run1 }
      .ok (st1, ensure_dir fs1 (get_write_dir st1 none))

/-- `_init_run(run=-1, run_descr='', init_run=-1)`. The `run` and `init_run`
parameters are `-1`-defaulted integers in the source and are only ever `-1`
or a non-negative run identifier; `none` models `-1`. Resuming (`run = -1`)
reads the registry file when present and takes its last run, incrementing it
when a fresh description is supplied; a missing registry file starts run 0
with a default description. Pinning (`run ≥ 0`) reloads the registry file. -/
def _init_run (st : PipelineState) (fs : FS) (run : Option Nat) (run_descr : String)
    (init_run : Option Nat) (now : String) : Except PyExn (PipelineState × FS) :=
  match run with
  | none =>
    match fs.getFile (runs_filename st) with
    | some (.registry reg) =>
      match reg.getLast? with
      | none => .error .stopIteration
      | some (k, _) =>
        if run_descr ≠ "" then _init_run_finish st fs reg (k + 1) run_descr init_run now
        else _init_run_finish st fs reg k run_descr init_run now
    | some _ => .error (.jsonDecodeError (runs_filename st))
    | none =>
      let descr := if run_descr = "" then "run zero" else run_descr
      _init_run_finish st fs st.avail_runs 0 descr init_run now
  | some n =>
    match fs.getFile (runs_filename st) with
    | some (.registry reg) => _init_run_finish st fs reg n run_descr init_run now
    | some _ => .error (.jsonDecodeError (runs_filename st))
    | none => .error (.fileNotFound (runs_filename st))

-- ------------------------------------------------------------------
-- Step executor: _init_step, _run_step
-- ------------------------------------------------------------------

/-- `_init_step(step_name, mode='w', suffix='')`: resolve the step key in the
static catalog (the failing `[0]` on no match is an `IndexError`), prepend
the new suffix to the current directory suffix, create the `arrays/` and
`figs/` subdirectories and open the step log files (contents not modelled). -/
def _init_step (st : PipelineState) (fs : FS) (step_name mode suffix : String) :
    FS × Except PyExn PipelineState :=
  match (avail_steps.filter (fun kv => kv.2 == step_name)).head? with
  | none => (fs, .error (.indexError "list index out of range"))
  | some kv =>
    let st1 := { st with
      step := kv.1
      step_name := step_name
      step_dir_suffix := suffix ++ st.step_dir_suffix }
    let step_dir := get_step_dir st1 none none
    let fs1 := ensure_dir (ensure_dir fs (step_dir ++ "arrays/")) (step_dir ++ "figs/")
    let fs2 := (fs1.setFile (step_dir ++ "log.txt") (.text mode)).setFile
      (step_dir ++ "log_tf.txt") (.text mode)
    (fs2, .ok st1)

/-- An imported step module: its opaque `run(**params)` entry point (which
may transform the file system and raise) and its `run.__doc__` docstring,
which documents the accepted parameters. -/
structure StepModule where
  doc : String
  run : Rec → FS → FS × Except PyExn Unit

/-- The `except TypeError` handler of `_run_step`: a `TypeError` whose text
signals an unexpected keyword argument is re-raised with the entry point's
docstring appended; every other exception is re-raised unchanged. -/
def handle_step_exn (doc : String) (e : PyExn) : PyExn :=
  match e with
  | .typeError msg =>
    if strContains msg "run() got an unexpected keyword argument" then
      .typeError (msg ++ "\n Provide one of the valid parameters\n" ++ doc)
    else .typeError msg
  | e => e

/-- `_run_step(step_name, params, suffix='')`: initialize the step, look the
current run up in the registry for the log line (`KeyError` when absent),
write `params.json`, dispatch to the entry point, and on success run the
visualization check. The returned file system is the one at the point of
return or raise. -/
def _run_step (st : PipelineState) (fs : FS) (step : StepModule) (step_name : String)
    (params : Rec) (suffix : String) : (PipelineState × FS) × Except PyExn Unit :=
  match _init_step st fs step_name "w" suffix with
  | (fs1, .error e) => ((st, fs1), .error e)
  | (fs1, .ok st1) =>
    match odLookup st1.run st1.avail_runs with
    | none => ((st1, fs1), .error (.keyError (natToStr st1.run)))
    | some _ =>
      match open_write fs1 (get_step_dir st1 none none) "params.json" (.json params) with
      | .error e => ((st1, fs1), .error e)
      | .ok fs2 =>
        match step.run params fs2 with
        | (fs3, .error e) => ((st1, fs3), .error (handle_step_exn step.doc e))
        | (fs3, .ok _) =>
          let figs_dir := get_step_dir st1 none none ++ "figs/"
          let fs4 :=
            if fsPathExists fs3 figs_dir && !(dir_is_empty fs3 figs_dir) then
              fs3.setFile (get_step_dir st1 none none ++ "figs.html") .html
            else fs3
          ((st1, fs4), .ok ())

-- ------------------------------------------------------------------
-- Patients initialization: _init_patients
-- ------------------------------------------------------------------

/-- The hardcoded dsb3 patient subset of `_init_patients`. -/
def dsb3_selected_patients : List String :=
  ["09ee522a3b7dbea48aa6d39afe240129", "cb64ff663195832e0b66a9bb17891954",
   "74b3ef4c2125d636980a19754702dbb9", "4aa3131e76b28e30235664087407edc3",
   "edad5e439ba696b89872f6b9af10cba0", "007c1246c5fe6f200378f6b91323dc2a",
   "e4a87107f94e4a8e32b735d18cef1137", "eb8d5136918d6859ca3cc3abafe369ac",
   "d51dffd06b80ed003aa6095b0639f511", "d81ab3ad896e4198caed105c469a4817"]

/-- The hardcoded LUNA16 patient subset of `_init_patients`. -/
def luna16_selected_patients : List String :=
  ["164790817284381538042494285101", "756684168227383088294595834066",
   "143410010885830403003179808334", "154703816225841204080664115280",
   "908250781706513856628130123235", "922852847124879997825997808179"]

/-- `_init_patients(_n_patients=0, single_patient_id=None, fromto_patients=None)`.
Dataset-specific patient enumeration (glob, natural sort, id extraction from
paths) is declared an external collaborator by the spec; its result is taken
as the `enumerated` argument and written back to the patients file when that
file is absent. `utils.ensure_dir` on the json filename is, per the spec,
ensuring the containing write directory. The function resets the global step
directory suffix and sets a fresh `_fromto` suffix only in the
`fromto_patients` branch. -/
def _init_patients (st : PipelineState) (fs : FS) (enumerated : List (String × String))
    (n_pat : Nat) (single_patient_id : Option String) (fromto_patients : Option (Nat × Nat)) :
    Except PyExn (PipelineState × FS) :=
  let filename := get_write_dir st none ++ "patients_raw_data_paths.json"
  let loaded : Except PyExn ((List (String × String)) × FS) :=
    match fs.getFile filename with
    | some (.strMap m) => .ok (m, fs)
    | some _ => .error (.jsonDecodeError filename)
    | none =>
      match open_write (ensure_dir fs (get_write_dir st none)) (get_write_dir st none)
          "patients_raw_data_paths.json" (.strMap enumerated) with
      | .error e => .error e
      | .ok fs1 => .ok (enumerated, fs1)
  match loaded with
  | .error e => .error e
  | .ok (paths, fs1) =>
    let patients0 := odKeys paths
    let st1 := { st with step_dir_suffix := "" }
    let res : List String × PipelineState :=
      if n_pat > 0 then
        let cut := patients0.take n_pat
        if st.dataset_name == "dsb3" then (dsb3_selected_patients, st1)
        else if st.dataset_name == "LUNA16" then (luna16_selected_patients, st1)
        else (cut, st1)
      else
        match single_patient_id with
        | some pid => ([pid], st1)
        | none =>
          match fromto_patients with
          | some (a, b) =>
            (pySlice patients0 a b,
             { st1 with step_dir_suffix := "_fromto" ++ natToStr a ++ "-" ++ natToStr b })
          | none => (patients0, st1)
    .ok ({ res.2 with
            patients := res.1
            n_patients := res.1.length
            patients_raw_data_paths := paths }, fs1)

-- ------------------------------------------------------------------
-- Derived definitions used in the statements of the claims
-- ------------------------------------------------------------------

/-- Proof device: the numeric value of a decimal digit string. -/
def toNatVal (l : List Char) : Nat := l.foldl (fun a c => 10 * a + (c.toNat - 48)) 0

/-- The registry a run-initialization call starts from: the persisted file's
content when the file exists, else the in-memory registry. -/
def priorRegistry (st : PipelineState) (fs : FS) : Registry :=
  match fs.getFile (runs_filename st) with
  | some (.registry reg) => reg
  | _ => st.avail_runs

-- ------------------------------------------------------------------
-- Concrete instances used by the witness theorems
-- ------------------------------------------------------------------

/-- A concrete pipeline state: active run 3, pinned init run 1. -/
def exSt : PipelineState :=
  { write_basedir := "/data/"
    dataset_name := "dsb3"
    avail_runs := [(0, ("2017-01-01 10:00", "run zero"))]
    run := 3
    init_run := 1
    step := "0"
    step_name := "resample_lungs"
    step_dir_suffix := ""
    patients := []
    n_patients := 0
    patients_raw_data_paths := [] }

/-- A concrete file system in which only run 1 has the step directory. -/
def exFsRun1 : FS :=
  { dirs := ["/data/dsb3_1/resample_lungs/arrays/"], files := [] }

/-- A concrete empty file system. -/
def exFsEmpty : FS := { dirs := [], files := [] }

/-- A concrete file system holding a one-entry run registry. -/
def exFsReg : FS :=
  { dirs := ["/data/"]
    files := [("/data/dsb3_runs.json", .registry [(0, ("t0", "run zero"))])] }

/-- A concrete file system holding a two-entry run registry whose last run
has a stored description. -/
def exFsReg2 : FS :=
  { dirs := ["/data/"]
    files := [("/data/dsb3_runs.json",
               .registry [(0, ("t0", "run zero")), (1, ("t1", "best run"))])] }

/-- The pipeline state after resuming `exFsReg` with an empty description at
time `t3` (run 0 reused, timestamp refreshed). -/
def exStAfter : PipelineState :=
  { exSt with
    avail_runs := [(0, ("t3", "run zero"))]
    run := 0
    init_run := -1 }

/-- The file system after that resumption. -/
def exFsAfter : FS :=
  { dirs := ["/data/dsb3_0/", "/data/"]
    files := [("/data/dsb3_runs.json", .registry [(0, ("t3", "run zero"))])] }

/-- A concrete file system in which the current run's step directory exists
and is empty; an ancestor run holds an unrelated record under the same name. -/
def exFsStep : FS :=
  { dirs := ["/data/dsb3_3/resample_lungs/"]
    files := [("/data/dsb3_1/resample_lungs/out.json", .json [("old", .b true)])] }

/-- The file system produced by step initialization in the executor witness
scenario (directories created, log files opened). -/
def exFsInit : FS :=
  { dirs := ["/data/dsb3_0/resample_lungs/figs/", "/data/dsb3_0/resample_lungs/arrays/"]
    files := [("/data/dsb3_0/resample_lungs/log.txt", .text "w"),
              ("/data/dsb3_0/resample_lungs/log_tf.txt", .text "w")] }

/-- That file system after the parameter file has been written. -/
def exFsParams : FS :=
  { dirs := ["/data/dsb3_0/resample_lungs/figs/", "/data/dsb3_0/resample_lungs/arrays/"]
    files := [("/data/dsb3_0/resample_lungs/log.txt", .text "w"),
              ("/data/dsb3_0/resample_lungs/log_tf.txt", .text "w"),
              ("/data/dsb3_0/resample_lungs/params.json", .json [("x", .n 1)])] }

/-- A step module that fails immediately with a generic `TypeError`, leaving
the file system untouched. -/
def stepFail : StepModule :=
  { doc := "run(param_a)"
    run := fun _ fsx => (fsx, .error (.typeError "boom")) }

/-- A step module that fails with the unexpected-keyword-argument
`TypeError`, leaving the file system untouched. -/
def stepKw : StepModule :=
  { doc := "run(param_a)"
    run := fun _ fsx =>
      (fsx, .error (.typeError "run() got an unexpected keyword argument q")) }

/-- Whether an exceptional computation succeeded. -/
def isOkE {ε α : Type} : Except ε α → Bool
  | .ok _ => true
  | .error _ => false

/-- A concrete state carrying a leftover step-directory suffix. -/
def exStSuf : PipelineState := { exStAfter with step_dir_suffix := "_b" }

/-- That state after initializing a step with the additional suffix `_a`:
the suffixes accumulate to `_a_b`. -/
def exStSufAfter : PipelineState := { exStAfter with step_dir_suffix := "_a_b" }

/-- The file system produced by that step initialization. -/
def exFsInitSuf : FS :=
  { dirs := ["/data/dsb3_0/resample_lungs_a_b/figs/",
             "/data/dsb3_0/resample_lungs_a_b/arrays/"]
    files := [("/data/dsb3_0/resample_lungs_a_b/log.txt", .text "w"),
              ("/data/dsb3_0/resample_lungs_a_b/log_tf.txt", .text "w")] }

-- ------------------------------------------------------------------
-- Helper lemmas: decimal numerals
-- ------------------------------------------------------------------

theorem natDigitsRev_fuel (f1 f2 n : Nat) (h1 : n < f1) (h2 : n < f2) :
    natDigitsRev f1 n = natDigitsRev f2 n := by
  induction f1 generalizing f2 n with
  | zero => omega
  | succ f ih =>
    cases f2 with
    | zero => omega
    | succ g =>
      simp only [natDigitsRev]
      by_cases hn : n < 10
      · simp [hn]
      · have hdiv : n / 10 < n := Nat.div_lt_self (by omega) (by omega)
        simp only [if_neg hn]
        rw [ih g (n / 10) (by omega) (by omega)]

theorem natChars_eq (n : Nat) :
    natChars n = if n < 10 then [digitChar n] else natChars (n / 10) ++ [digitChar (n % 10)] := by
  by_cases hn : n < 10
  · simp [natChars, natDigitsRev, hn]
  · have hdiv : n / 10 < n := Nat.div_lt_self (by omega) (by omega)
    rw [if_neg hn]
    show (natDigitsRev (n + 1) n).reverse = _
    rw [show natDigitsRev (n + 1) n = digitChar (n % 10) :: natDigitsRev n (n / 10) from by
      simp [natDigitsRev, hn]]
    rw [List.reverse_cons, natDigitsRev_fuel n (n / 10 + 1) (n / 10) hdiv (by omega)]
    rfl

theorem digitChar_ne_slash : ∀ d : Nat, digitChar d ≠ '/'
  | 0 => by decide
  | 1 => by decide
  | 2 => by decide
  | 3 => by decide
  | 4 => by decide
  | 5 => by decide
  | 6 => by decide
  | 7 => by decide
  | 8 => by decide
  | 9 => by decide
  | _ + 10 => by show '*' ≠ '/'; decide

theorem natChars_ne_slash (n : Nat) : ∀ c ∈ natChars n, c ≠ '/' := by
  induction n using Nat.strong_induction_on with
  | _ n ih =>
    rw [natChars_eq]
    by_cases hn : n < 10
    · simp only [if_pos hn, List.mem_singleton]
      intro c hc
      exact hc ▸ digitChar_ne_slash n
    · simp only [if_neg hn, List.mem_append, List.mem_singleton]
      intro c hc
      rcases hc with h | h
      · exact ih (n / 10) (Nat.div_lt_self (by omega) (by omega)) c h
      · exact h ▸ digitChar_ne_slash (n % 10)

theorem toNat_digitChar (d : Nat) (h : d < 10) : (digitChar d).toNat - 48 = d := by
  interval_cases d <;> decide

theorem toNatVal_natChars (n : Nat) : toNatVal (natChars n) = n := by
  induction n using Nat.strong_induction_on with
  | _ n ih =>
    rw [natChars_eq]
    by_cases hn : n < 10
    · rw [if_pos hn]
      show 10 * 0 + ((digitChar n).toNat - 48) = n
      rw [toNat_digitChar n hn]
      omega
    · have hdiv : n / 10 < n := Nat.div_lt_self (by omega) (by omega)
      rw [if_neg hn]
      show List.foldl (fun a c => 10 * a + (c.toNat - 48)) 0
        (natChars (n / 10) ++ [digitChar (n % 10)]) = n
      rw [List.foldl_append]
      show 10 * toNatVal (natChars (n / 10)) + ((digitChar (n % 10)).toNat - 48) = n
      rw [ih _ hdiv, toNat_digitChar _ (Nat.mod_lt n (by omega))]
      omega

theorem natChars_inj {m n : Nat} (h : natChars m = natChars n) : m = n := by
  have hm := toNatVal_natChars m
  rw [h, toNatVal_natChars] at hm
  exact hm.symm

theorem natToStr_inj {m n : Nat} (h : natToStr m = natToStr n) : m = n :=
  natChars_inj (congrArg String.data h)

theorem append_slash_inj :
    ∀ (l1 l2 t1 t2 : List Char), (∀ c ∈ l1, c ≠ '/') → (∀ c ∈ l2, c ≠ '/') →
      l1 ++ '/' :: t1 = l2 ++ '/' :: t2 → l1 = l2 ∧ t1 = t2 := by
  intro l1
  induction l1 with
  | nil =>
    intro l2 t1 t2 _ h2 heq
    cases l2 with
    | nil => simpa using heq
    | cons c l2' =>
      simp only [List.nil_append, List.cons_append, List.cons.injEq] at heq
      exact absurd heq.1.symm (h2 c (by simp))
  | cons c l1' ih =>
    intro l2 t1 t2 h1 h2 heq
    cases l2 with
    | nil =>
      simp only [List.cons_append, List.nil_append, List.cons.injEq] at heq
      exact absurd heq.1 (h1 c (by simp))
    | cons c2 l2' =>
      simp only [List.cons_append, List.cons.injEq] at heq
      obtain ⟨hc, hrest⟩ := heq
      obtain ⟨hl, ht⟩ := ih l2' t1 t2 (fun x hx => h1 x (by simp [hx])) (fun x hx => h2 x (by simp [hx])) hrest
      exact ⟨by rw [hc, hl], ht⟩

-- ------------------------------------------------------------------
-- Helper lemmas: ordered dicts
-- ------------------------------------------------------------------

section OdLemmas

variable {α β : Type} [DecidableEq α]

theorem odLookup_odSet_self (d : List (α × β)) (k : α) (v : β) :
    odLookup k (odSet d k v) = some v := by
  induction d with
  | nil => simp [odSet, odLookup]
  | cons kv rest ih =>
    by_cases h : kv.1 = k
    · simp [odSet, h, odLookup]
    · simp [odSet, h, odLookup, ih]

theorem odLookup_odSet_ne (d : List (α × β)) {j k : α} (h : j ≠ k) (v : β) :
    odLookup j (odSet d k v) = odLookup j d := by
  have hkj : ¬ k = j := fun hh => h hh.symm
  induction d with
  | nil => simp [odSet, odLookup, hkj]
  | cons kv rest ih =>
    by_cases hk : kv.1 = k
    · simp [odSet, hk, odLookup, hkj]
    · simp [odSet, hk, odLookup, ih]

theorem odSet_append_of_not_mem {d : List (α × β)} {k : α} (h : k ∉ odKeys d) (v : β) :
    odSet d k v = d ++ [(k, v)] := by
  induction d with
  | nil => simp [odSet]
  | cons kv rest ih =>
    simp only [odKeys, List.map_cons, List.mem_cons, not_or] at h
    have h1 : ¬ kv.1 = k := fun hh => h.1 hh.symm
    have h2 : k ∉ odKeys rest := by simpa [odKeys] using h.2
    simp only [odSet, if_neg h1, ih h2, List.cons_append]

theorem odKeys_odSet_of_mem {d : List (α × β)} {k : α} (h : k ∈ odKeys d) (v : β) :
    odKeys (odSet d k v) = odKeys d := by
  induction d with
  | nil => simp [odKeys] at h
  | cons kv rest ih =>
    by_cases hk : kv.1 = k
    · simp [odSet, hk, odKeys]
    · simp only [odKeys, List.map_cons, List.mem_cons] at h
      rcases h with h | h
      · exact absurd h.symm hk
      · simp [odSet, hk, odKeys]
        exact ih (by simpa [odKeys] using h)

theorem odLookup_odUpdate_not_mem {d2 : List (α × β)} {k : α} (h : k ∉ odKeys d2)
    (d1 : List (α × β)) : odLookup k (odUpdate d1 d2) = odLookup k d1 := by
  induction d2 generalizing d1 with
  | nil => simp [odUpdate]
  | cons kv rest ih =>
    simp only [odKeys, List.map_cons, List.mem_cons, not_or] at h
    show odLookup k (odUpdate (odSet d1 kv.1 kv.2) rest) = odLookup k d1
    rw [ih (by simpa [odKeys] using h.2), odLookup_odSet_ne d1 h.1 kv.2]

theorem odLookup_odUpdate_mem {d2 : List (α × β)} (hnd : (odKeys d2).Nodup) {k : α}
    (h : k ∈ odKeys d2) (d1 : List (α × β)) :
    odLookup k (odUpdate d1 d2) = odLookup k d2 := by
  induction d2 generalizing d1 with
  | nil => simp [odKeys] at h
  | cons kv rest ih =>
    simp only [odKeys, List.map_cons, List.nodup_cons] at hnd
    simp only [odKeys, List.map_cons, List.mem_cons] at h
    show odLookup k (odUpdate (odSet d1 kv.1 kv.2) rest) = odLookup k ((kv.1, kv.2) :: rest)
    by_cases hk : k = kv.1
    · subst hk
      rw [odLookup_odUpdate_not_mem (by simpa [odKeys] using hnd.1),
        odLookup_odSet_self]
      simp [odLookup]
    · rcases h with h | h
      · exact absurd h hk
      · rw [ih hnd.2 (by simpa [odKeys] using h)]
        have hkk : ¬ kv.1 = k := fun hh => hk hh.symm
        simp [odLookup, hkk]

theorem odKeys_odUpdate_disjoint {d1 d2 : List (α × β)} (hnd : (odKeys d2).Nodup)
    (hdisj : ∀ k, k ∈ odKeys d1 → k ∉ odKeys d2) :
    odKeys (odUpdate d1 d2) = odKeys d1 ++ odKeys d2 := by
  induction d2 generalizing d1 with
  | nil => simp [odUpdate, odKeys]
  | cons kv rest ih =>
    have hnd1 : kv.1 ∉ odKeys rest := by
      have hh := hnd
      simp only [odKeys, List.map_cons, List.nodup_cons] at hh
      simpa [odKeys] using hh.1
    have hndr : (odKeys rest).Nodup := by
      have hh := hnd
      simp only [odKeys, List.map_cons, List.nodup_cons] at hh
      exact hh.2
    have hk1 : kv.1 ∉ odKeys d1 := fun hmem => hdisj kv.1 hmem (by simp [odKeys])
    have hd : ∀ k, k ∈ odKeys (d1 ++ [(kv.1, kv.2)]) → k ∉ odKeys rest := by
      intro k hk hkr
      simp only [odKeys, List.map_append, List.mem_append, List.map_cons, List.map_nil,
        List.mem_singleton] at hk
      rcases hk with hk | hk
      · exact hdisj k hk (by simp only [odKeys, List.map_cons, List.mem_cons]; exact Or.inr hkr)
      · exact hnd1 (hk ▸ hkr)
    show odKeys (odUpdate (odSet d1 kv.1 kv.2) rest) = odKeys d1 ++ odKeys (kv :: rest)
    rw [odSet_append_of_not_mem hk1, ih hndr hd]
    simp [odKeys]

end OdLemmas

-- ------------------------------------------------------------------
-- Helper lemmas: file system
-- ------------------------------------------------------------------

theorem getFile_setFile_self (fs : FS) (p : String) (d : FileData) :
    (fs.setFile p d).getFile p = some d := odLookup_odSet_self fs.files p d

theorem getFile_setFile_ne (fs : FS) {p q : String} (h : q ≠ p) (d : FileData) :
    (fs.setFile p d).getFile q = fs.getFile q := odLookup_odSet_ne fs.files h d

theorem getFile_ensure_dir (fs : FS) (d : String) (p : String) :
    (ensure_dir fs d).getFile p = fs.getFile p := rfl

theorem dirs_setFile (fs : FS) (p : String) (d : FileData) :
    (fs.setFile p d).dirs = fs.dirs := rfl

theorem fsDirExists_setFile (fs : FS) (p : String) (d : FileData) (q : String) :
    fsDirExists (fs.setFile p d) q = fsDirExists fs q := rfl

-- ------------------------------------------------------------------
-- Helper lemmas: lineage chain and resolver loop
-- ------------------------------------------------------------------

theorem countdown_eq (i : Nat) : countdown i = (List.range (i + 1)).reverse := by
  induction i with
  | zero => rfl
  | succ i ih =>
    rw [List.range_succ, List.reverse_append]
    simp [countdown, ih]

theorem getLast?_getD_cons {α : Type} (a b : α) (l : List α) :
    ((a :: l).getLast?).getD b = (l.getLast?).getD a := by
  cases l with
  | nil => rfl
  | cons c l' =>
    rw [List.getLast?_cons_cons]
    have hs : ((c :: l').getLast?).isSome := List.getLast?_isSome.mpr (by simp)
    obtain ⟨x, hx⟩ := Option.isSome_iff_exists.mp hs
    rw [hx]
    rfl

theorem loadLoop_found (st : PipelineState) (fs : FS) (sn : Option String) :
    ∀ (l : List Nat) (last : String) (r : Nat),
      l.find? (fun r' => fsDirExists fs (get_step_dir st sn (some r'))) = some r →
      loadLoop st fs sn l last = .ok (get_step_dir st sn (some r)) := by
  intro l
  induction l with
  | nil => intro last r h; simp [List.find?] at h
  | cons a rest ih =>
    intro last r h
    by_cases ha : fsDirExists fs (get_step_dir st sn (some a)) = true
    · have h1 : List.find? (fun r' => fsDirExists fs (get_step_dir st sn (some r'))) (a :: rest) =
          some a := List.find?_cons_of_pos _ ha
      obtain rfl : a = r := by
        have h2 := h1.symm.trans h
        simpa using h2
      simp [loadLoop, ha]
    · have ha' : fsDirExists fs (get_step_dir st sn (some a)) = false := by
        simpa using ha
      have h1 : List.find? (fun r' => fsDirExists fs (get_step_dir st sn (some r'))) (a :: rest) =
          List.find? (fun r' => fsDirExists fs (get_step_dir st sn (some r'))) rest :=
        List.find?_cons_of_neg _ (by simp [ha'])
      simp only [loadLoop, ha', Bool.false_eq_true, if_false]
      exact ih _ r (h1.symm.trans h)

theorem loadLoop_exhausted (st : PipelineState) (fs : FS) (sn : Option String) :
    ∀ (l : List Nat) (last : String),
      (∀ r ∈ l, fsDirExists fs (get_step_dir st sn (some r)) = false) →
      loadLoop st fs sn l last = .error (.fileNotFound
        ("Did not find " ++ ((l.map (fun r => get_step_dir st sn (some r))).getLast?.getD last)
          ++ " in runs " ++ pyListStr (trial_runs st) ++ ".")) := by
  intro l
  induction l with
  | nil => intro last _; rfl
  | cons a rest ih =>
    intro last h
    have ha := h a (by simp)
    simp only [loadLoop, ha, Bool.false_eq_true, if_false]
    rw [ih _ (fun r hr => h r (by simp [hr]))]
    rw [List.map_cons, getLast?_getD_cons]

theorem loadLoop_dirs_eq (st : PipelineState) (fs fs' : FS) (sn : Option String)
    (hd : fs.dirs = fs'.dirs) :
    ∀ (l : List Nat) (last : String), loadLoop st fs sn l last = loadLoop st fs' sn l last := by
  intro l
  induction l with
  | nil => intro last; rfl
  | cons a rest ih =>
    intro last
    have he : fsDirExists fs (get_step_dir st sn (some a)) =
        fsDirExists fs' (get_step_dir st sn (some a)) := by
      simp [fsDirExists, hd]
    simp only [loadLoop, he]
    by_cases hb : fsDirExists fs' (get_step_dir st sn (some a)) = true
    · simp [hb]
    · have hb' : fsDirExists fs' (get_step_dir st sn (some a)) = false := by simpa using hb
      simp [hb', ih]

-- ------------------------------------------------------------------
-- Helper lemmas: run initialization
-- ------------------------------------------------------------------

theorem open_write_ok {fs : FS} {dir base : String} {d : FileData} {fs' : FS}
    (h : open_write fs dir base d = .ok fs') :
    fs' = fs.setFile (dir ++ base) d ∧ fsDirExists fs dir = true := by
  unfold open_write at h
  by_cases hd : fsDirExists fs dir = true
  · rw [if_pos hd] at h
    exact ⟨by simpa using h.symm, hd⟩
  · rw [if_neg hd] at h
    simp at h

theorem init_run_finish_ok {st : PipelineState} {fs : FS} {avail : Registry} {run1 : Nat}
    {descr : String} {ir : Option Nat} {now : String} {st' : PipelineState} {fs' : FS}
    (h : _init_run_finish st fs avail run1 descr ir now = .ok (st', fs')) :
    ∃ d : String,
      ((avail ≠ [] ∧ descr = "") → ∃ ts, odLookup run1 avail = some (ts, d)) ∧
      (¬(avail ≠ [] ∧ descr = "") → d = descr) ∧
      st' = { st with
              avail_runs := odSet avail run1 (now, d)
              run := run1
              init_run := default_init_run ir run1 } ∧
      fs' = ensure_dir (fs.setFile (st.write_basedir ++ (st.dataset_name ++ "_runs.json"))
              (.registry (odSet avail run1 (now, d)))) (get_write_dir st' none) := by
  unfold _init_run_finish at h
  by_cases hc : avail ≠ [] ∧ descr = ""
  · rw [if_pos hc] at h
    cases hl : odLookup run1 avail with
    | none => rw [hl] at h; simp at h
    | some ent =>
      obtain ⟨ts0, d0⟩ := ent
      rw [hl] at h
      dsimp only [] at h
      cases howk : open_write fs st.write_basedir (st.dataset_name ++ "_runs.json")
          (.registry (odSet avail run1 (now, d0))) with
      | error e => rw [howk] at h; simp at h
      | ok fs1 =>
        rw [howk] at h
        obtain ⟨hfs1, _⟩ := open_write_ok howk
        simp only [Except.ok.injEq, Prod.mk.injEq] at h
        obtain ⟨hst, hfs⟩ := h
        refine ⟨d0, fun _ => ⟨ts0, rfl⟩, fun hcc => absurd hc hcc, hst.symm, ?_⟩
        rw [← hfs, hfs1, ← hst]
  · rw [if_neg hc] at h
    dsimp only [] at h
    cases howk : open_write fs st.write_basedir (st.dataset_name ++ "_runs.json")
        (.registry (odSet avail run1 (now, descr))) with
    | error e => rw [howk] at h; simp at h
    | ok fs1 =>
      rw [howk] at h
      obtain ⟨hfs1, _⟩ := open_write_ok howk
      simp only [Except.ok.injEq, Prod.mk.injEq] at h
      obtain ⟨hst, hfs⟩ := h
      refine ⟨descr, fun hcc => absurd hcc hc, fun _ => rfl, hst.symm, ?_⟩
      rw [← hfs, hfs1, ← hst]

theorem init_run_ok_finish {st : PipelineState} {fs : FS} {run : Option Nat}
    {run_descr : String} {ir : Option Nat} {now : String} {st' : PipelineState} {fs' : FS}
    (h : _init_run st fs run run_descr ir now = .ok (st', fs')) :
    ∃ avail run1 descr1, avail = priorRegistry st fs ∧
      _init_run_finish st fs avail run1 descr1 ir now = .ok (st', fs') := by
  unfold _init_run at h
  cases run with
  | none =>
    cases hg : fs.getFile (runs_filename st) with
    | none =>
      rw [hg] at h
      dsimp only [] at h
      exact ⟨st.avail_runs, 0, _, by simp [priorRegistry, hg], h⟩
    | some fd =>
      rw [hg] at h
      cases fd with
      | registry reg =>
        dsimp only [] at h
        cases hl : reg.getLast? with
        | none => rw [hl] at h; dsimp only [] at h; simp at h
        | some ke =>
          obtain ⟨k0, e0⟩ := ke
          rw [hl] at h
          dsimp only [] at h
          by_cases hd : run_descr ≠ ""
          · rw [if_pos hd] at h
            exact ⟨reg, k0 + 1, run_descr, by simp [priorRegistry, hg], h⟩
          · rw [if_neg hd] at h
            exact ⟨reg, k0, run_descr, by simp [priorRegistry, hg], h⟩
      | json r => dsimp only [] at h; simp at h
      | strMap m => dsimp only [] at h; simp at h
      | text s => dsimp only [] at h; simp at h
      | html => dsimp only [] at h; simp at h
  | some n =>
    cases hg : fs.getFile (runs_filename st) with
    | none => rw [hg] at h; dsimp only [] at h; simp at h
    | some fd =>
      rw [hg] at h
      cases fd with
      | registry reg =>
        dsimp only [] at h
        exact ⟨reg, n, run_descr, by simp [priorRegistry, hg], h⟩
      | json r => dsimp only [] at h; simp at h
      | strMap m => dsimp only [] at h; simp at h
      | text s => dsimp only [] at h; simp at h
      | html => dsimp only [] at h; simp at h

theorem init_run_ok_init_run {st : PipelineState} {fs : FS} {run : Option Nat}
    {run_descr : String} {ir : Option Nat} {now : String} {st' : PipelineState} {fs' : FS}
    (h : _init_run st fs run run_descr ir now = .ok (st', fs')) :
    st'.init_run = default_init_run ir st'.run := by
  obtain ⟨avail, run1, descr1, _, hf⟩ := init_run_ok_finish h
  obtain ⟨d, _, _, hst, _⟩ := init_run_finish_ok hf
  rw [hst]

-- ------------------------------------------------------------------
-- Claims
-- ------------------------------------------------------------------

/-- C1: for every artifact load with current run `r` and initialization run
`i` (defaulting to `r - 1` when not pinned), the lineage resolver consults
runs in exactly the order `[r, i, i-1, ..., 0]` and returns the step
directory of the first run in that order whose directory exists on disk,
regardless of whether the requested artifact file itself is present in that
directory (the resolver reads only the directory set of the file system). -/
theorem claim_C1 :
    (∀ (st : PipelineState) (i : Nat), st.init_run = Int.ofNat i →
      trial_runs st = st.run :: (List.range (i + 1)).reverse)
    ∧ (∀ st : PipelineState, st.init_run < 0 → trial_runs st = [st.run])
    ∧ (∀ (st : PipelineState) (fs : FS) (descr now : String) (st' : PipelineState) (fs' : FS),
        _init_run st fs none descr none now = .ok (st', fs') →
        st'.init_run = (st'.run : Int) - 1)
    ∧ (∀ (st : PipelineState) (fs : FS) (descr now : String) (i : Nat)
        (st' : PipelineState) (fs' : FS),
        _init_run st fs none descr (some i) now = .ok (st', fs') →
        st'.init_run = Int.ofNat i)
    ∧ (∀ (st : PipelineState) (fs : FS) (sn : Option String) (r : Nat),
        (trial_runs st).find? (fun r' => fsDirExists fs (get_step_dir st sn (some r'))) = some r →
        _get_step_dir_for_load st fs sn = .ok (get_step_dir st sn (some r)))
    ∧ (∀ (st : PipelineState) (fs fs' : FS) (sn : Option String), fs.dirs = fs'.dirs →
        _get_step_dir_for_load st fs sn = _get_step_dir_for_load st fs' sn) := by
  refine ⟨?_, ?_, ?_, ?_, ?_, ?_⟩
  · intro st i h
    simp [trial_runs, h, countdown_eq]
  · intro st h
    cases hi : st.init_run with
    | ofNat i =>
      rw [hi, Int.ofNat_eq_natCast] at h
      exact absurd h (by omega)
    | negSucc m => simp [trial_runs, hi]
  · intro st fs descr now st' fs' h
    exact init_run_ok_init_run h
  · intro st fs descr now i st' fs' h
    exact init_run_ok_init_run h
  · intro st fs sn r h
    exact loadLoop_found st fs sn (trial_runs st) "" r h
  · intro st fs fs' sn hd
    exact loadLoop_dirs_eq st fs fs' sn hd (trial_runs st) ""

/-- Witness for C1: in a state with run 3 and pinned init run 1, on a file
system where only run 1's step directory exists, the resolver returns run
1's directory. -/
theorem claim_C1_witness :
    _get_step_dir_for_load exSt exFsRun1 none = .ok (get_step_dir exSt none (some 1)) :=
  claim_C1.2.2.2.2.1 exSt exFsRun1 none 1 (by decide)

/-- C2: for every artifact load in which no run in the lineage chain has an
existing step directory, the load fails with a `FileNotFoundError` whose
message lists exactly the attempted chain of run identifiers; in particular
with current run 3 and `init_run` pinned to 1 the chain is `[3, 1, 0]` and
the message ends with `in runs [3, 1, 0].`. -/
theorem claim_C2 :
    (∀ (st : PipelineState) (fs : FS) (sn : Option String),
        (∀ r ∈ trial_runs st, fsDirExists fs (get_step_dir st sn (some r)) = false) →
        _get_step_dir_for_load st fs sn = .error (.fileNotFound (lineage_err_msg st sn)))
    ∧ (∀ st : PipelineState, st.run = 3 → st.init_run = 1 →
        trial_runs st = [3, 1, 0] ∧
        ∀ sn, lineage_err_msg st sn =
          "Did not find " ++ get_step_dir st sn (some 0) ++ " in runs [3, 1, 0].") := by
  constructor
  · intro st fs sn h
    exact loadLoop_exhausted st fs sn (trial_runs st) "" h
  · intro st h3 h1
    have ht : trial_runs st = [3, 1, 0] := by
      simp [trial_runs, h3, h1, countdown]
    refine ⟨ht, ?_⟩
    intro sn
    unfold lineage_err_msg
    rw [ht]
    simp only [List.map_cons, List.map_nil, List.getLast?_cons_cons,
      List.getLast?_singleton, Option.getD_some]
    rw [String.append_assoc ("Did not find " ++ get_step_dir st sn (some 0))
      " in runs " (pyListStr [3, 1, 0])]
    rw [String.append_assoc ("Did not find " ++ get_step_dir st sn (some 0))
      (" in runs " ++ pyListStr [3, 1, 0]) "."]
    have hQ : (" in runs " ++ pyListStr [3, 1, 0]) ++ "." = " in runs [3, 1, 0]." := by decide
    rw [hQ]

/-- Witness for C2: with run 3 and pinned init run 1 on an empty file
system, the load fails with the chain `[3, 1, 0]` in the message. -/
theorem claim_C2_witness :
    _get_step_dir_for_load exSt exFsEmpty none = .error (.fileNotFound (lineage_err_msg exSt none)) :=
  claim_C2.1 exSt exFsEmpty none (by decide)

-- ------------------------------------------------------------------
-- Helper lemmas: registry evaluation
-- ------------------------------------------------------------------

theorem runs_filename_assoc (st : PipelineState) :
    runs_filename st = st.write_basedir ++ (st.dataset_name ++ "_runs.json") :=
  String.append_assoc _ _ _

theorem odLookup_append_singleton {α β : Type} [DecidableEq α] {front : List (α × β)} {k : α}
    (h : k ∉ odKeys front) (v : β) : odLookup k (front ++ [(k, v)]) = some v := by
  induction front with
  | nil => simp [odLookup]
  | cons kv rest ih =>
    simp only [odKeys, List.map_cons, List.mem_cons, not_or] at h
    have h1 : ¬ kv.1 = k := fun hh => h.1 hh.symm
    simp only [List.cons_append, odLookup, if_neg h1]
    exact ih (by simpa [odKeys] using h.2)

theorem init_run_finish_eval (st : PipelineState) (fs : FS) (avail : Registry) (run1 : Nat)
    (descr : String) (ir : Option Nat) (now : String)
    (hcond : ¬(avail ≠ [] ∧ descr = ""))
    (hdir : fsDirExists fs st.write_basedir = true) :
    _init_run_finish st fs avail run1 descr ir now =
      .ok ({ st with
             avail_runs := odSet avail run1 (now, descr)
             run := run1
             init_run := default_init_run ir run1 },
           ensure_dir (fs.setFile (st.write_basedir ++ (st.dataset_name ++ "_runs.json"))
             (.registry (odSet avail run1 (now, descr))))
             (get_write_dir { st with
               avail_runs := odSet avail run1 (now, descr)
               run := run1
               init_run := default_init_run ir run1 } none)) := by
  unfold _init_run_finish
  rw [if_neg hcond]
  dsimp only []
  unfold open_write
  rw [if_pos hdir]

theorem init_run_finish_eval_lookup (st : PipelineState) (fs : FS) (avail : Registry)
    (run1 : Nat) (ir : Option Nat) (now : String) (ts d : String)
    (hlook : odLookup run1 avail = some (ts, d))
    (hne : avail ≠ [])
    (hdir : fsDirExists fs st.write_basedir = true) :
    _init_run_finish st fs avail run1 "" ir now =
      .ok ({ st with
             avail_runs := odSet avail run1 (now, d)
             run := run1
             init_run := default_init_run ir run1 },
           ensure_dir (fs.setFile (st.write_basedir ++ (st.dataset_name ++ "_runs.json"))
             (.registry (odSet avail run1 (now, d))))
             (get_write_dir { st with
               avail_runs := odSet avail run1 (now, d)
               run := run1
               init_run := default_init_run ir run1 } none)) := by
  unfold _init_run_finish
  rw [if_pos ⟨hne, rfl⟩, hlook]
  dsimp only []
  unfold open_write
  rw [if_pos hdir]

-- ------------------------------------------------------------------
-- C4
-- ------------------------------------------------------------------

/-- Counterexample to C4 as stated: two distinct (run identifier, step name,
suffix) triples produce the same step-directory path, because step name and
suffix are concatenated without a separator. -/
theorem claim_C4_counterexample :
    ((0 : Nat), "ab", "") ≠ ((0 : Nat), "a", "b") ∧
    step_dir_of "/data/" "dsb3" 0 "ab" "" = step_dir_of "/data/" "dsb3" 0 "a" "b" := by
  constructor
  · decide
  · decide

/-- C4 (amended): the step-directory path function is deterministic, and it
is injective over the pair (run identifier, step name ++ suffix): two paths
for the same base directory and dataset coincide exactly when the run
identifiers agree and the concatenations of step name and suffix agree.
Triples that differ only in where the step name ends and the suffix begins
collide. The triple function agrees with the source's `get_step_dir`. -/
theorem claim_C4 :
    (∀ (b d : String) (r1 r2 : Nat) (s1 x1 s2 x2 : String),
      step_dir_of b d r1 s1 x1 = step_dir_of b d r2 s2 x2 ↔ (r1 = r2 ∧ s1 ++ x1 = s2 ++ x2))
    ∧ (∀ (st : PipelineState) (sn : String) (run : Nat),
        get_step_dir st (some sn) (some run) =
          step_dir_of st.write_basedir st.dataset_name run sn st.step_dir_suffix) := by
  constructor
  · intro b d r1 r2 s1 x1 s2 x2
    constructor
    · intro h
      have hslash : ("/" : String).data = ['/'] := rfl
      have hund : ("_" : String).data = ['_'] := rfl
      have hdat : b.data ++ (d.data ++ ('_' :: ((natToStr r1).data ++
            ('/' :: (s1.data ++ (x1.data ++ ['/'])))))) =
          b.data ++ (d.data ++ ('_' :: ((natToStr r2).data ++
            ('/' :: (s2.data ++ (x2.data ++ ['/'])))))) := by
        have hd0 := congrArg String.data h
        simpa [step_dir_of, String.data_append, List.append_assoc, hslash, hund] using hd0
      have h1 := List.append_cancel_left hdat
      have h2 := List.append_cancel_left h1
      have h3 : (natToStr r1).data ++ ('/' :: (s1.data ++ (x1.data ++ ['/']))) =
          (natToStr r2).data ++ ('/' :: (s2.data ++ (x2.data ++ ['/']))) := by
        have h2' := h2
        injection h2'
      obtain ⟨hn, ht⟩ := append_slash_inj _ _ _ _
        (natChars_ne_slash r1) (natChars_ne_slash r2) h3
      refine ⟨natToStr_inj (String.ext hn), ?_⟩
      have ht2 : (s1.data ++ x1.data) ++ ['/'] = (s2.data ++ x2.data) ++ ['/'] := by
        simpa [List.append_assoc] using ht
      have ht3 := List.append_cancel_right ht2
      exact String.ext (by simpa [String.data_append] using ht3)
    · rintro ⟨rfl, hsx⟩
      unfold step_dir_of
      rw [String.append_assoc (b ++ d ++ "_" ++ natToStr r1 ++ "/") s1 x1,
        String.append_assoc (b ++ d ++ "_" ++ natToStr r1 ++ "/") s2 x2, hsx]
  · intro st sn run
    rfl

/-- Witness for the amended C4: a concrete path collision forces equal run
identifiers and equal step-name/suffix concatenations. -/
theorem claim_C4_witness :
    (3 : Nat) = 3 ∧ "ab" ++ "" = "a" ++ "b" :=
  (claim_C4.1 "/data/" "dsb3" 3 3 "ab" "" "a" "b").mp (by decide)

-- ------------------------------------------------------------------
-- C3, C8, C10
-- ------------------------------------------------------------------

/-- C3: for every persisted registry satisfying the documented invariant
(keys are the dense, increasing sequence `0..k`, so the highest run
identifier is `k`), resuming (`run = -1` in the source, `none` here) with a
non-empty description allocates run `k+1` as the active run, records the new
description under `k+1` with the current timestamp, and leaves every prior
registry entry (identifier, timestamp, description) unchanged: the new
registry is the old one with one entry appended. -/
theorem claim_C3 (st : PipelineState) (fs : FS) (reg : Registry) (k : Nat)
    (descr : String) (ir : Option Nat) (now : String)
    (hreg : fs.getFile (runs_filename st) = some (.registry reg))
    (hkeys : odKeys reg = List.range (k + 1))
    (hdescr : descr ≠ "")
    (hdir : fsDirExists fs st.write_basedir = true) :
    ∃ st' fs', _init_run st fs none descr ir now = .ok (st', fs') ∧
      st'.run = k + 1 ∧
      st'.avail_runs = reg ++ [(k + 1, (now, descr))] ∧
      fs'.getFile (runs_filename st) = some (.registry (reg ++ [(k + 1, (now, descr))])) := by
  have hlast : ∃ e, reg.getLast? = some (k, e) := by
    have hmap : (reg.map Prod.fst).getLast? = reg.getLast?.map Prod.fst :=
      List.getLast?_map _ reg
    have hk2 : reg.map Prod.fst = List.range (k + 1) := hkeys
    rw [hk2, List.range_succ, List.getLast?_concat] at hmap
    cases hg : reg.getLast? with
    | none => rw [hg] at hmap; exact absurd hmap (by simp)
    | some p =>
      obtain ⟨kk, e⟩ := p
      rw [hg] at hmap
      have hkk : kk = k := by simpa using hmap.symm
      exact ⟨e, by rw [hkk]⟩
  obtain ⟨e0, hlast⟩ := hlast
  have hnotmem : (k + 1) ∉ odKeys reg := by
    rw [hkeys]
    intro hmem
    exact absurd (List.mem_range.mp hmem) (by omega)
  have hset : odSet reg (k + 1) (now, descr) = reg ++ [(k + 1, (now, descr))] :=
    odSet_append_of_not_mem hnotmem _
  have hdisp : _init_run st fs none descr ir now =
      _init_run_finish st fs reg (k + 1) descr ir now := by
    unfold _init_run
    rw [hreg]
    dsimp only []
    rw [hlast]
    dsimp only []
    rw [if_pos hdescr]
  have hcond : ¬(reg ≠ [] ∧ descr = "") := fun hc => hdescr hc.2
  rw [hdisp, init_run_finish_eval st fs reg (k + 1) descr ir now hcond hdir]
  refine ⟨_, _, rfl, rfl, hset, ?_⟩
  rw [getFile_ensure_dir, runs_filename_assoc, getFile_setFile_self, hset]

/-- Witness for C3: resuming a concrete one-run registry with a fresh
description succeeds. -/
theorem claim_C3_witness :
    isOkE (_init_run exSt exFsReg none "second" none "t1") = true := by
  obtain ⟨st', fs', h, -, -, -⟩ := claim_C3 exSt exFsReg [(0, ("t0", "run zero"))] 0 "second"
    none "t1" (by decide) (by decide) (by decide) (by decide)
  rw [h]
  rfl

/-- C8: for every persisted registry whose last entry is run `k` with a
previously stored description `d` (keys unduplicated, as for a dict),
resuming (`run = -1`) with an empty description reuses `k` as the active run
and preserves `d` in the rewritten registry entry (only its timestamp is
refreshed). -/
theorem claim_C8 (st : PipelineState) (fs : FS) (front : Registry) (k : Nat) (ts d : String)
    (ir : Option Nat) (now : String)
    (hreg : fs.getFile (runs_filename st) = some (.registry (front ++ [(k, (ts, d))])))
    (hnd : (odKeys (front ++ [(k, (ts, d))])).Nodup)
    (hdir : fsDirExists fs st.write_basedir = true) :
    ∃ st' fs', _init_run st fs none "" ir now = .ok (st', fs') ∧
      st'.run = k ∧
      odLookup k st'.avail_runs = some (now, d) ∧
      fs'.getFile (runs_filename st) =
        some (.registry (odSet (front ++ [(k, (ts, d))]) k (now, d))) := by
  have hkfront : k ∉ odKeys front := by
    simp only [odKeys, List.map_append, List.map_cons, List.map_nil] at hnd
    have := (List.nodup_append.mp hnd).2.2
    intro hmem
    exact this hmem (by simp)
  have hlook : odLookup k (front ++ [(k, (ts, d))]) = some (ts, d) :=
    odLookup_append_singleton hkfront _
  have hlast : (front ++ [(k, (ts, d))]).getLast? = some (k, (ts, d)) :=
    List.getLast?_concat front
  have hdisp : _init_run st fs none "" ir now =
      _init_run_finish st fs (front ++ [(k, (ts, d))]) k "" ir now := by
    unfold _init_run
    rw [hreg]
    dsimp only []
    rw [hlast]
    dsimp only []
    rw [if_neg (by simp)]
  rw [hdisp, init_run_finish_eval_lookup st fs (front ++ [(k, (ts, d))]) k ir now ts d
    hlook (by simp) hdir]
  refine ⟨_, _, rfl, rfl, ?_, ?_⟩
  · show odLookup k (odSet (front ++ [(k, (ts, d))]) k (now, d)) = some (now, d)
    exact odLookup_odSet_self _ _ _
  · rw [getFile_ensure_dir, runs_filename_assoc, getFile_setFile_self]

/-- Witness for C8: resuming a concrete two-run registry with an empty
description succeeds (reusing the last run). -/
theorem claim_C8_witness :
    isOkE (_init_run exSt exFsReg2 none "" none "t2") = true := by
  obtain ⟨st', fs', h, -, -, -⟩ := claim_C8 exSt exFsReg2 [(0, ("t0", "run zero"))] 1 "t1"
    "best run" none "t2" (by decide) (by decide) (by decide)
  rw [h]
  rfl

/-- C10: every successful run-initialization call writes the registry back
as the prior registry (the persisted file's content when it existed, the
in-memory registry otherwise) with exactly the active run's entry set to
`(now, d)` for some description `d` — the current wall-clock time is always
stamped, even when resuming with an empty description — while the lookup of
every other run identifier in the written registry is unchanged. -/
theorem claim_C10 (st : PipelineState) (fs : FS) (run : Option Nat) (run_descr : String)
    (ir : Option Nat) (now : String) (st' : PipelineState) (fs' : FS)
    (h : _init_run st fs run run_descr ir now = .ok (st', fs')) :
    ∃ d : String,
      fs'.getFile (runs_filename st) =
        some (.registry (odSet (priorRegistry st fs) st'.run (now, d))) ∧
      odLookup st'.run (odSet (priorRegistry st fs) st'.run (now, d)) = some (now, d) ∧
      ∀ j, j ≠ st'.run →
        odLookup j (odSet (priorRegistry st fs) st'.run (now, d)) =
          odLookup j (priorRegistry st fs) := by
  obtain ⟨avail, run1, descr1, hprior, hfin⟩ := init_run_ok_finish h
  obtain ⟨d, _, _, hst, hfs⟩ := init_run_finish_ok hfin
  subst hprior
  have hrun : st'.run = run1 := by rw [hst]
  refine ⟨d, ?_, ?_, ?_⟩
  · rw [hfs, getFile_ensure_dir, runs_filename_assoc, getFile_setFile_self, hrun]
  · rw [hrun]
    exact odLookup_odSet_self _ _ _
  · intro j hj
    rw [hrun] at hj
    rw [hrun]
    exact odLookup_odSet_ne _ hj _

/-- Witness for C10: after the concrete resumption of `exFsReg` with an
empty description, the registry file is present with the rewritten entry. -/
theorem claim_C10_witness :
    (exFsAfter.getFile (runs_filename exSt)).isSome = true := by
  obtain ⟨d, h1, -, -⟩ := claim_C10 exSt exFsReg none "" none "t3" exStAfter exFsAfter
    (by decide)
  rw [h1]
  rfl

-- ------------------------------------------------------------------
-- C5
-- ------------------------------------------------------------------

theorem get_step_dir_for_load_head (st : PipelineState) (fs : FS) (sn : Option String)
    (h : fsDirExists fs (get_step_dir st sn (some st.run)) = true) :
    _get_step_dir_for_load st fs sn = .ok (get_step_dir st sn (some st.run)) := by
  have ht : trial_runs st = st.run :: (match st.init_run with
      | Int.ofNat i => countdown i
      | Int.negSucc _ => []) := rfl
  unfold _get_step_dir_for_load
  rw [ht]
  simp [loadLoop, h]

/-- C5: saving a structured record twice in merge mode (`mode='a'`), from a
state where the current step directory exists but the record file does not,
stores exactly `odUpdate d1 d2` in the current step directory — whatever any
ancestor run's directories contain, since the merge's read resolves to the
current step directory (the existence guard is on the direct path). With
disjoint key sets the stored keys are the concatenation of both key lists;
a key of the second record always gets the second record's (later) value,
and keys absent from it keep the first record's value. -/
theorem claim_C5 (st : PipelineState) (fs : FS) (basename : String) (d1 d2 : Rec)
    (sn : Option String)
    (hdir : fsDirExists fs (get_step_dir st sn none) = true)
    (hfile : fsPathExists fs (get_step_dir st sn none ++ basename) = false)
    (hnd2 : (odKeys d2).Nodup) :
    ∃ fs1 fs2, save_json st fs basename d1 sn "a" = .ok fs1 ∧
      save_json st fs1 basename d2 sn "a" = .ok fs2 ∧
      fs2.getFile (get_step_dir st sn none ++ basename) = some (.json (odUpdate d1 d2)) ∧
      ((∀ k, k ∈ odKeys d1 → k ∉ odKeys d2) →
        odKeys (odUpdate d1 d2) = odKeys d1 ++ odKeys d2) ∧
      (∀ k, k ∈ odKeys d2 → odLookup k (odUpdate d1 d2) = odLookup k d2) ∧
      (∀ k, k ∉ odKeys d2 → odLookup k (odUpdate d1 d2) = odLookup k d1) := by
  have hs1 : save_json st fs basename d1 sn "a" =
      .ok (fs.setFile (get_step_dir st sn none ++ basename) (.json d1)) := by
    unfold save_json
    dsimp only []
    rw [hfile]
    simp only [Bool.and_false, Bool.false_eq_true, if_false]
    unfold open_write
    rw [if_pos hdir]
  have hgf1 : (fs.setFile (get_step_dir st sn none ++ basename) (.json d1)).getFile
      (get_step_dir st sn none ++ basename) = some (.json d1) :=
    getFile_setFile_self _ _ _
  have hpe1 : fsPathExists (fs.setFile (get_step_dir st sn none ++ basename) (.json d1))
      (get_step_dir st sn none ++ basename) = true := by
    simp [fsPathExists, fsFileExists, hgf1]
  have hdir1 : fsDirExists (fs.setFile (get_step_dir st sn none ++ basename) (.json d1))
      (get_step_dir st sn (some st.run)) = true := hdir
  have hgf1' : (fs.setFile (get_step_dir st sn none ++ basename) (.json d1)).getFile
      (get_step_dir st sn (some st.run) ++ basename) = some (.json d1) := hgf1
  have hload : load_json st (fs.setFile (get_step_dir st sn none ++ basename) (.json d1))
      basename sn = .ok d1 := by
    unfold load_json
    rw [get_step_dir_for_load_head st _ sn hdir1]
    dsimp only []
    rw [hgf1']
  have hdir1' : fsDirExists (fs.setFile (get_step_dir st sn none ++ basename) (.json d1))
      (get_step_dir st sn none) = true := hdir
  have hs2 : save_json st (fs.setFile (get_step_dir st sn none ++ basename) (.json d1))
      basename d2 sn "a" =
      .ok ((fs.setFile (get_step_dir st sn none ++ basename) (.json d1)).setFile
        (get_step_dir st sn none ++ basename) (.json (odUpdate d1 d2))) := by
    unfold save_json
    dsimp only []
    rw [hpe1]
    simp only [Bool.and_true]
    rw [if_pos (show (("a" : String) == "a") = true from rfl)]
    rw [hload]
    dsimp only []
    unfold open_write
    rw [if_pos hdir1']
  refine ⟨_, _, hs1, hs2, getFile_setFile_self _ _ _, ?_, ?_, ?_⟩
  · intro hdisj
    exact odKeys_odUpdate_disjoint hnd2 hdisj
  · intro k hk
    exact odLookup_odUpdate_mem hnd2 hk d1
  · intro k hk
    exact odLookup_odUpdate_not_mem hk d1

/-- Witness for C5: a concrete merge-mode save into run 3's step directory,
with an unrelated record of the same name present in run 1, succeeds. -/
theorem claim_C5_witness :
    isOkE (save_json exSt exFsStep "out.json" [("a", JVal.n 1)] none "a") = true := by
  obtain ⟨fs1, fs2, h1, -, -, -, -, -⟩ := claim_C5 exSt exFsStep "out.json"
    [("a", JVal.n 1)] [("b", JVal.n 2)] none (by decide) (by decide) (by decide)
  rw [h1]
  rfl

-- ------------------------------------------------------------------
-- C6, C7
-- ------------------------------------------------------------------

theorem strContains_append_right (a b : String) : strContains (a ++ b) b = true := by
  simp only [strContains, String.data_append, decide_eq_true_eq]
  exact ⟨a.data, [], by simp⟩

theorem handle_step_exn_other (doc : String) (e : PyExn)
    (h : ∀ msg, e = .typeError msg →
      strContains msg "run() got an unexpected keyword argument" = false) :
    handle_step_exn doc e = e := by
  cases e with
  | typeError msg =>
    have hm := h msg rfl
    simp [handle_step_exn, hm]
  | fileNotFound m => rfl
  | keyError m => rfl
  | indexError m => rfl
  | stopIteration => rfl
  | jsonDecodeError m => rfl

theorem run_step_dispatch (st : PipelineState) (fs : FS) (step : StepModule)
    (step_name : String) (params : Rec) (suffix : String) (st1 : PipelineState)
    (fs1 : FS) (ent : RunEntry) (fs2 fs3 : FS) (r : PyExn)
    (hinit : _init_step st fs step_name "w" suffix = (fs1, .ok st1))
    (hlook : odLookup st1.run st1.avail_runs = some ent)
    (hwrite : open_write fs1 (get_step_dir st1 none none) "params.json" (.json params) = .ok fs2)
    (hrun : step.run params fs2 = (fs3, .error r)) :
    _run_step st fs step step_name params suffix =
      ((st1, fs3), .error (handle_step_exn step.doc r)) := by
  unfold _run_step
  rw [hinit]
  dsimp only []
  rw [hlook]
  dsimp only []
  rw [hwrite]
  dsimp only []
  rw [hrun]

/-- C6: for every step invocation whose initialization, registry lookup and
parameter write succeed, the parameter file is on disk in the file system
handed to the step's entry point — i.e. it is written before the entry point
is invoked; consequently, if the entry point raises any exception, then (as
long as the entry point did not itself remove the file) the parameter file
already exists on disk at the moment of failure, and the executor's result
carries that failure file system. -/
theorem claim_C6 (st : PipelineState) (fs : FS) (step_name : String) (params : Rec)
    (suffix : String) (st1 : PipelineState) (fs1 : FS) (ent : RunEntry) (fs2 : FS)
    (hinit : _init_step st fs step_name "w" suffix = (fs1, .ok st1))
    (hlook : odLookup st1.run st1.avail_runs = some ent)
    (hwrite : open_write fs1 (get_step_dir st1 none none) "params.json" (.json params) = .ok fs2) :
    fs2.getFile (get_step_dir st1 none none ++ "params.json") = some (.json params) ∧
    ∀ (step : StepModule) (fs3 : FS) (e : PyExn),
      step.run params fs2 = (fs3, .error e) →
      _run_step st fs step step_name params suffix =
        ((st1, fs3), .error (handle_step_exn step.doc e)) ∧
      ((∀ p v, fs2.getFile p = some v → fs3.getFile p = some v) →
        fs3.getFile (get_step_dir st1 none none ++ "params.json") = some (.json params)) := by
  obtain ⟨hfs2, _⟩ := open_write_ok hwrite
  have hA : fs2.getFile (get_step_dir st1 none none ++ "params.json") = some (.json params) := by
    rw [hfs2]
    exact getFile_setFile_self _ _ _
  refine ⟨hA, ?_⟩
  intro step fs3 e hrun
  exact ⟨run_step_dispatch st fs step step_name params suffix st1 fs1 ent fs2 fs3 e
    hinit hlook hwrite hrun, fun hpres => hpres _ _ hA⟩

/-- Witness for C6: a step that fails with a generic error still leaves the
parameter file on disk, and the executor surfaces the failure unchanged. -/
theorem claim_C6_witness :
    _run_step exStAfter exFsEmpty stepFail "resample_lungs" [("x", JVal.n 1)] "" =
      ((exStAfter, exFsParams), .error (handle_step_exn stepFail.doc (.typeError "boom"))) ∧
    exFsParams.getFile (get_step_dir exStAfter none none ++ "params.json") =
      some (.json [("x", JVal.n 1)]) := by
  have h := claim_C6 exStAfter exFsEmpty "resample_lungs" [("x", JVal.n 1)] ""
    exStAfter exFsInit ("t3", "run zero") exFsParams (by decide) (by decide) (by decide)
  obtain ⟨hA, hB⟩ := h
  have hb := hB stepFail exFsParams (.typeError "boom") rfl
  exact ⟨hb.1, hA⟩

/-- C7: for every step invocation whose entry point fails with the
unexpected-keyword-argument `TypeError`, the executor re-raises a `TypeError`
whose message is the original message extended with the entry point's
declared parameter list (its docstring), which the message then contains;
every other exception raised by the entry point propagates to the caller
unchanged. -/
theorem claim_C7 (st : PipelineState) (fs : FS) (step_name : String) (params : Rec)
    (suffix : String) (st1 : PipelineState) (fs1 : FS) (ent : RunEntry) (fs2 : FS)
    (hinit : _init_step st fs step_name "w" suffix = (fs1, .ok st1))
    (hlook : odLookup st1.run st1.avail_runs = some ent)
    (hwrite : open_write fs1 (get_step_dir st1 none none) "params.json" (.json params) = .ok fs2) :
    (∀ (step : StepModule) (fs3 : FS) (msg : String),
      step.run params fs2 = (fs3, .error (.typeError msg)) →
      strContains msg "run() got an unexpected keyword argument" = true →
      _run_step st fs step step_name params suffix =
        ((st1, fs3), .error (.typeError
          (msg ++ "\n Provide one of the valid parameters\n" ++ step.doc))) ∧
      strContains (msg ++ "\n Provide one of the valid parameters\n" ++ step.doc)
        step.doc = true)
    ∧ (∀ (step : StepModule) (fs3 : FS) (e : PyExn),
      step.run params fs2 = (fs3, .error e) →
      (∀ msg, e = .typeError msg →
        strContains msg "run() got an unexpected keyword argument" = false) →
      _run_step st fs step step_name params suffix = ((st1, fs3), .error e)) := by
  constructor
  · intro step fs3 msg hrun hsub
    constructor
    · rw [run_step_dispatch st fs step step_name params suffix st1 fs1 ent fs2 fs3 _
        hinit hlook hwrite hrun]
      simp [handle_step_exn, hsub]
    · exact strContains_append_right (msg ++ "\n Provide one of the valid parameters\n") step.doc
  · intro step fs3 e hrun hother
    rw [run_step_dispatch st fs step step_name params suffix st1 fs1 ent fs2 fs3 _
      hinit hlook hwrite hrun]
    rw [handle_step_exn_other step.doc e hother]

/-- Witness for C7: a keyword-argument failure is re-raised with the
docstring appended; the enriched message contains the docstring. -/
theorem claim_C7_witness :
    _run_step exStAfter exFsEmpty stepKw "resample_lungs" [("x", JVal.n 1)] "" =
      ((exStAfter, exFsParams), .error (.typeError
        ("run() got an unexpected keyword argument q" ++
          "\n Provide one of the valid parameters\n" ++ stepKw.doc))) ∧
    strContains ("run() got an unexpected keyword argument q" ++
      "\n Provide one of the valid parameters\n" ++ stepKw.doc) stepKw.doc = true := by
  have h := claim_C7 exStAfter exFsEmpty "resample_lungs" [("x", JVal.n 1)] ""
    exStAfter exFsInit ("t3", "run zero") exFsParams (by decide) (by decide) (by decide)
  exact h.1 stepKw exFsParams "run() got an unexpected keyword argument q" rfl (by decide)

-- ------------------------------------------------------------------
-- C9
-- ------------------------------------------------------------------

/-- C9: initializing a step with suffix `s` when the process-wide suffix
holds `t` sets the suffix to the concatenation `s ++ t` rather than
replacing it, so suffixes accumulate across successive step initializations
within one process; patient initialization resets the suffix to the empty
string — except in its `fromto` branch, which then sets the fresh
`_fromto<a>-<b>` suffix. Consequently the directory used by a step
invocation depends on the suffix already held in the state, not only on the
suffix passed to it: with a non-empty prior suffix the resulting step
directory differs from the one obtained from a cleared state. -/
theorem claim_C9 :
    (∀ (st : PipelineState) (fs : FS) (name mode s : String) (st1 : PipelineState) (fs1 : FS),
      _init_step st fs name mode s = (fs1, .ok st1) →
      st1.step_dir_suffix = s ++ st.step_dir_suffix)
    ∧ (∀ (st : PipelineState) (fs : FS) (enumerated : List (String × String)) (n : Nat)
        (single : Option String) (st' : PipelineState) (fs' : FS),
        _init_patients st fs enumerated n single none = .ok (st', fs') →
        st'.step_dir_suffix = "")
    ∧ (∀ (st : PipelineState) (fs : FS) (enumerated : List (String × String)) (a b : Nat)
        (st' : PipelineState) (fs' : FS),
        _init_patients st fs enumerated 0 none (some (a, b)) = .ok (st', fs') →
        st'.step_dir_suffix = "_fromto" ++ natToStr a ++ "-" ++ natToStr b)
    ∧ (∀ (st : PipelineState) (fs : FS) (name mode s : String)
        (st1 st2 : PipelineState) (fs1 fs2 : FS),
        st.step_dir_suffix ≠ "" →
        _init_step st fs name mode s = (fs1, .ok st1) →
        _init_step { st with step_dir_suffix := "" } fs name mode s = (fs2, .ok st2) →
        get_step_dir st1 none none ≠ get_step_dir st2 none none) := by
  have hinit : ∀ (st : PipelineState) (fs : FS) (name mode s : String)
      (st1 : PipelineState) (fs1 : FS), _init_step st fs name mode s = (fs1, .ok st1) →
      ∃ kv, (avail_steps.filter (fun kv => kv.2 == name)).head? = some kv ∧
        st1 = { st with
                step := kv.1
                step_name := name
                step_dir_suffix := s ++ st.step_dir_suffix } := by
    intro st fs name mode s st1 fs1 h
    unfold _init_step at h
    cases hh : (avail_steps.filter (fun kv => kv.2 == name)).head? with
    | none =>
      rw [hh] at h
      simp at h
    | some kv =>
      rw [hh] at h
      dsimp only [] at h
      simp only [Prod.mk.injEq, Except.ok.injEq] at h
      exact ⟨kv, rfl, h.2.symm⟩
  refine ⟨?_, ?_, ?_, ?_⟩
  · intro st fs name mode s st1 fs1 h
    obtain ⟨kv, -, hst⟩ := hinit st fs name mode s st1 fs1 h
    rw [hst]
  · intro st fs enumerated n single st' fs' h
    unfold _init_patients at h
    dsimp only [] at h
    cases hg : fs.getFile (get_write_dir st none ++ "patients_raw_data_paths.json") with
    | some fd =>
      rw [hg] at h
      cases fd with
      | strMap m =>
        dsimp only [] at h
        simp only [Except.ok.injEq, Prod.mk.injEq] at h
        obtain ⟨hst, -⟩ := h
        rw [← hst]
        by_cases hn : n > 0
        · simp only [if_pos hn]
          by_cases hd1 : (st.dataset_name == "dsb3") = true
          · simp only [if_pos hd1]
          · simp only [if_neg hd1]
            by_cases hd2 : (st.dataset_name == "LUNA16") = true
            · simp only [if_pos hd2]
            · simp only [if_neg hd2]
        · simp only [if_neg hn]
          cases single with
          | some pid => rfl
          | none => rfl
      | json r => simp at h
      | registry r => simp at h
      | text t => simp at h
      | html => simp at h
    | none =>
      rw [hg] at h
      cases how : open_write (ensure_dir fs (get_write_dir st none)) (get_write_dir st none)
          "patients_raw_data_paths.json" (.strMap enumerated) with
      | error e => rw [how] at h; simp at h
      | ok fsw =>
        rw [how] at h
        dsimp only [] at h
        simp only [Except.ok.injEq, Prod.mk.injEq] at h
        obtain ⟨hst, -⟩ := h
        rw [← hst]
        by_cases hn : n > 0
        · simp only [if_pos hn]
          by_cases hd1 : (st.dataset_name == "dsb3") = true
          · simp only [if_pos hd1]
          · simp only [if_neg hd1]
            by_cases hd2 : (st.dataset_name == "LUNA16") = true
            · simp only [if_pos hd2]
            · simp only [if_neg hd2]
        · simp only [if_neg hn]
          cases single with
          | some pid => rfl
          | none => rfl
  · intro st fs enumerated a b st' fs' h
    unfold _init_patients at h
    dsimp only [] at h
    cases hg : fs.getFile (get_write_dir st none ++ "patients_raw_data_paths.json") with
    | some fd =>
      rw [hg] at h
      cases fd with
      | strMap m =>
        dsimp only [] at h
        simp only [Except.ok.injEq, Prod.mk.injEq] at h
        obtain ⟨hst, -⟩ := h
        rw [← hst]
        rw [if_neg (by omega : ¬ (0 : Nat) > 0)]
      | json r => simp at h
      | registry r => simp at h
      | text t => simp at h
      | html => simp at h
    | none =>
      rw [hg] at h
      cases how : open_write (ensure_dir fs (get_write_dir st none)) (get_write_dir st none)
          "patients_raw_data_paths.json" (.strMap enumerated) with
      | error e => rw [how] at h; simp at h
      | ok fsw =>
        rw [how] at h
        dsimp only [] at h
        simp only [Except.ok.injEq, Prod.mk.injEq] at h
        obtain ⟨hst, -⟩ := h
        rw [← hst]
        rw [if_neg (by omega : ¬ (0 : Nat) > 0)]
  · intro st fs name mode s st1 st2 fs1 fs2 hne h1 h2
    obtain ⟨kv1, -, hst1⟩ := hinit st fs name mode s st1 fs1 h1
    obtain ⟨kv2, -, hst2⟩ := hinit { st with step_dir_suffix := "" } fs name mode s st2 fs2 h2
    intro heq
    rw [hst1, hst2] at heq
    have hl := congrArg String.length heq
    simp only [get_step_dir, get_write_dir, String.length_append, String.length_empty,
      Option.getD_none] at hl
    have hlen : st.step_dir_suffix.length = 0 := by omega
    exact hne (String.ext (List.length_eq_zero.mp hlen))

/-- Witness for C9: initializing a step with suffix `_a` on a state whose
suffix is `_b` accumulates to `_a_b`. -/
theorem claim_C9_witness : exStSufAfter.step_dir_suffix = "_a" ++ "_b" :=
  claim_C9.1 exStSuf exFsEmpty "resample_lungs" "w" "_a" exStSufAfter exFsInitSuf (by decide)
